import Mathlib

/-!
Verification development for the script src/scripts/check_aws.py.

The script tries an SDK-based AWS identity lookup (check_with_boto3) and,
exactly when the SDK library is unavailable, falls back to invoking the
aws command line tool (check_with_awscli).  The orchestration (main)
prints messages and terminates with exit codes 0, 2, 3 or 4.

The embedding below models:
  - JSON values (the identity payload), together with executable models of
    the Python stdlib collaborators json.dumps(v, indent=2) and
    json.loads(s).  Numbers are modelled as integers (the identity payload
    contains only strings and the script never manipulates numbers);
    strings are Unicode scalar values, as in Lean.  The serializer follows
    the CPython encoder with ensure_ascii=True and indent=2; the parser
    follows the CPython strict decoder, except that it rejects lone
    surrogate escapes (which Lean strings cannot represent) and accepts
    leading zeros in integers.
  - Python exceptions as an explicit Except channel: each external call
    (imports, the STS call, subprocess.run, load_dotenv) is an environment
    value of type Except PyExc _, and try/except blocks are translated to
    matches on that value, re-raising the constructors that the except
    clauses do not cover.
-/

namespace CheckAws

mutual

/-- JSON values, restricted to integer numbers.  Arrays and objects are
given by mutual inductives so that structural recursion and induction over
the whole family is available. -/
inductive Json where
  | null : Json
  | bool : Bool → Json
  | num : Int → Json
  | str : String → Json
  | arr : JsonItems → Json
  | obj : JsonFields → Json

/-- A list of JSON array elements. -/
inductive JsonItems where
  | nil : JsonItems
  | cons : Json → JsonItems → JsonItems

/-- A list of JSON object members, in insertion order, as in a Python dict. -/
inductive JsonFields where
  | nil : JsonFields
  | cons : String → Json → JsonFields → JsonFields

end

/-- Decimal digit character for a value below ten. -/
def digitCh (d : Nat) : Char := Char.ofNat (48 + d)

/-- Numeric value of a decimal digit character. -/
def digitVal (c : Char) : Nat := c.toNat - 48

/-- Is this character an ASCII decimal digit. -/
def isDigitCh (c : Char) : Bool := 48 ≤ c.toNat && c.toNat ≤ 57

/-- Decimal digit characters of a natural number, most significant first;
this is the output format of the Python int repr used by json.dumps. -/
def natChars (n : Nat) : List Char :=
  if n = 0 then ['0'] else ((Nat.digits 10 n).map digitCh).reverse

/-- Decimal rendering of an integer, as the Python int repr. -/
def intChars (i : Int) : List Char :=
  match i with
  | Int.ofNat n => natChars n
  | Int.negSucc m => '-' :: natChars (m + 1)

/-- Lowercase hexadecimal digit character for a value below sixteen. -/
def hexCh (d : Nat) : Char :=
  Char.ofNat (if d < 10 then 48 + d else 87 + d)

/-- Four lowercase hexadecimal digits, as produced by the CPython encoder
for a backslash-u escape. -/
def hex4 (n : Nat) : List Char :=
  [hexCh (n / 4096 % 16), hexCh (n / 256 % 16), hexCh (n / 16 % 16), hexCh (n % 16)]

/-- Escape one character as the CPython encoder with ensure_ascii=True
does: the two-character shortcuts for quote, backslash and the five named
control characters, printable ASCII verbatim, a backslash-u escape for
other characters of the basic plane, and a surrogate pair of escapes for
characters beyond it. -/
def escapeChar (c : Char) : List Char :=
  if c = '"' then ['\\', '"']
  else if c = '\\' then ['\\', '\\']
  else if c = '\x08' then ['\\', 'b']
  else if c = '\x09' then ['\\', 't']
  else if c = '\x0a' then ['\\', 'n']
  else if c = '\x0c' then ['\\', 'f']
  else if c = '\x0d' then ['\\', 'r']
  else if 32 ≤ c.toNat ∧ c.toNat ≤ 126 then [c]
  else if c.toNat < 65536 then '\\' :: 'u' :: hex4 c.toNat
  else
    let v := c.toNat - 65536
    '\\' :: 'u' :: hex4 (55296 + v / 1024) ++ '\\' :: 'u' :: hex4 (56320 + v % 1024)

/-- Escape every character of a string body. -/
def escList : List Char → List Char
  | [] => []
  | c :: cs => escapeChar c ++ escList cs

/-- A JSON string literal: quote, escaped body, quote. -/
def strChars (s : String) : List Char :=
  '"' :: (escList s.data ++ ['"'])

/-- Indentation written by json.dumps(v, indent=2) at nesting level lvl. -/
def indentChars (lvl : Nat) : List Char :=
  List.replicate (2 * lvl) ' '

mutual

/-- Rendering of a JSON value at nesting level lvl, exactly as
json.dumps(v, indent=2): empty containers collapse to two characters,
nonempty containers put every element on its own line, indented two
spaces per level, with the separators comma and colon-space. -/
def renderL (lvl : Nat) (j : Json) : List Char :=
  match j with
  | .null => 'n' :: ['u', 'l', 'l']
  | .bool b => cond b ('t' :: ['r', 'u', 'e']) ('f' :: ['a', 'l', 's', 'e'])
  | .num i => intChars i
  | .str s => strChars s
  | .arr .nil => ['[', ']']
  | .arr (.cons h t) =>
      '[' :: '\n' :: (renderItems (lvl + 1) h t ++ '\n' :: (indentChars lvl ++ [']']))
  | .obj .nil => ['{', '}']
  | .obj (.cons k v t) =>
      '{' :: '\n' :: (renderFields (lvl + 1) k v t ++ '\n' :: (indentChars lvl ++ ['}']))
termination_by sizeOf j

/-- Rendering of the elements of a nonempty array, one per line. -/
def renderItems (lvl : Nat) (h : Json) (t : JsonItems) : List Char :=
  indentChars lvl ++ renderL lvl h ++
    (match t with
     | .nil => []
     | .cons h2 t2 => ',' :: '\n' :: renderItems lvl h2 t2)
termination_by sizeOf (JsonItems.cons h t)

/-- Rendering of the members of a nonempty object, one per line, each as
key, colon, space, value. -/
def renderFields (lvl : Nat) (k : String) (v : Json) (t : JsonFields) : List Char :=
  indentChars lvl ++ strChars k ++ ':' :: ' ' :: renderL lvl v ++
    (match t with
     | .nil => []
     | .cons k2 v2 t2 => ',' :: '\n' :: renderFields lvl k2 v2 t2)
termination_by sizeOf (JsonFields.cons k v t)

end

/-- Model of json.dumps(v, indent=2). -/
def json_dumps (v : Json) : String :=
  String.mk (renderL 0 v)

/-- JSON whitespace, as accepted between tokens by the Python decoder. -/
def isWsCh (c : Char) : Bool :=
  c = ' ' || c = '\t' || c = '\n' || c = '\r'

/-- Skip JSON whitespace. -/
def skipWs : List Char → List Char
  | [] => []
  | c :: cs => if isWsCh c then skipWs cs else c :: cs

/-- Numeric value of a hexadecimal digit character, if it is one. -/
def hexVal (c : Char) : Option Nat :=
  if 48 ≤ c.toNat ∧ c.toNat ≤ 57 then some (c.toNat - 48)
  else if 97 ≤ c.toNat ∧ c.toNat ≤ 102 then some (c.toNat - 87)
  else if 65 ≤ c.toNat ∧ c.toNat ≤ 70 then some (c.toNat - 55)
  else none

/-- Shortcut escapes of the Python decoder: the character each
single-letter escape stands for, if any. -/
def shortEscape (e : Char) : Option Char :=
  if e = '"' then some '"'
  else if e = '\\' then some '\\'
  else if e = '/' then some '/'
  else if e = 'b' then some '\x08'
  else if e = 't' then some '\x09'
  else if e = 'n' then some '\x0a'
  else if e = 'f' then some '\x0c'
  else if e = 'r' then some '\x0d'
  else none

/-- Decode one character of a JSON string body that does not start with
the closing quote: either an escape sequence or a literal character.  A
surrogate pair of backslash-u escapes is recombined into one scalar value
as the Python decoder does; lone surrogate escapes are rejected because
Lean strings cannot hold them; a raw control character is rejected as in
the strict Python decoder. -/
def decodeOne (cs : List Char) : Except String (Char × List Char) :=
  match cs with
  | [] => .error "unterminated string"
  | c :: rest =>
    if c = '\\' then
      match rest with
      | [] => .error "unterminated string"
      | e :: rest1 =>
        if e = 'u' then
          match rest1 with
          | a :: b :: g :: d :: rest2 =>
            (match hexVal a, hexVal b, hexVal g, hexVal d with
             | some x, some y, some z, some w =>
               let n := ((x * 16 + y) * 16 + z) * 16 + w
               if 55296 ≤ n ∧ n < 56320 then
                 match rest2 with
                 | u1 :: u2 :: a2 :: b2 :: g2 :: d2 :: rest4 =>
                   if u1 = '\\' ∧ u2 = 'u' then
                     (match hexVal a2, hexVal b2, hexVal g2, hexVal d2 with
                      | some x2, some y2, some z2, some w2 =>
                        let n2 := ((x2 * 16 + y2) * 16 + z2) * 16 + w2
                        if 56320 ≤ n2 ∧ n2 < 57344 then
                          .ok (Char.ofNat (65536 + (n - 55296) * 1024 + (n2 - 56320)), rest4)
                        else .error "lone surrogate"
                      | _, _, _, _ => .error "invalid hex escape")
                   else .error "lone surrogate"
                 | _ => .error "lone surrogate"
               else if 56320 ≤ n ∧ n < 57344 then .error "lone surrogate"
               else .ok (Char.ofNat n, rest2)
             | _, _, _, _ => .error "invalid hex escape")
          | _ => .error "invalid hex escape"
        else
          match shortEscape e with
          | some dec => .ok (dec, rest1)
          | none => .error "invalid escape"
    else if c.toNat < 32 then .error "control character in string"
    else .ok (c, rest)

/-- A successful decode step consumes at least one input character. -/
theorem decodeOne_length {cs : List Char} {ch : Char} {r2 : List Char}
    (h : decodeOne cs = .ok (ch, r2)) : r2.length < cs.length := by
  unfold decodeOne at h
  repeat' (first | split at h | simp only [] at h)
  all_goals (first
    | (simp only [Except.ok.injEq, Prod.mk.injEq] at h
       obtain ⟨h1, h2⟩ := h
       subst h2
       simp only [List.length_cons, List.length_nil]
       omega)
    | simp at h)

/-- Read the body of a JSON string literal up to and including the closing
quote, one decoded character at a time. -/
def parseStrBody (cs : List Char) : Except String (List Char × List Char) :=
  match cs with
  | [] => .error "unterminated string"
  | c :: rest =>
    if c = '"' then .ok ([], rest)
    else
      match hdec : decodeOne (c :: rest) with
      | .ok (ch, rest2) =>
        match parseStrBody rest2 with
        | .ok (sb, r) => .ok (ch :: sb, r)
        | .error msg => .error msg
      | .error msg => .error msg
termination_by cs.length
decreasing_by
  have hlen := decodeOne_length hdec
  simpa using hlen

/-- Value of a list of decimal digit characters, most significant first. -/
def digitsVal (ds : List Char) : Nat :=
  ds.foldl (fun a c => 10 * a + digitVal c) 0

/-- Read the digits of a JSON number and finish it, given whether a minus
sign was consumed.  The script never handles non-integer numbers, so a
fraction or exponent part is rejected by the model rather than parsed. -/
def parseNumTail (neg : Bool) (cs1 : List Char) : Except String (Json × List Char) :=
  let ds := cs1.takeWhile isDigitCh
  let rest := cs1.dropWhile isDigitCh
  if ds.isEmpty then .error "expecting value"
  else
    match rest with
    | c :: _ =>
      if c = '.' || c = 'e' || c = 'E' then .error "non-integer number"
      else .ok (.num (if neg then -(digitsVal ds : Int) else (digitsVal ds : Int)), rest)
    | [] => .ok (.num (if neg then -(digitsVal ds : Int) else (digitsVal ds : Int)), rest)

/-- Read a JSON number: an optional minus sign, then digits. -/
def parseNumber (cs : List Char) : Except String (Json × List Char) :=
  match cs with
  | [] => .error "expecting value"
  | c :: cs0 =>
    if c = '-' then parseNumTail true cs0 else parseNumTail false (c :: cs0)

mutual

/-- Read one JSON value, after skipping leading whitespace.  The fuel
argument strictly decreases on every recursive call; jfuel below gives a
sufficient amount. -/
def parseValue (fuel : Nat) (cs : List Char) : Except String (Json × List Char) :=
  match fuel with
  | 0 => .error "input too deeply nested"
  | f + 1 =>
    match skipWs cs with
    | [] => .error "expecting value"
    | c :: rest =>
      if c = 'n' then
        match rest with
        | 'u' :: 'l' :: 'l' :: rest1 => .ok (.null, rest1)
        | _ => .error "expecting value"
      else if c = 't' then
        match rest with
        | 'r' :: 'u' :: 'e' :: rest1 => .ok (.bool true, rest1)
        | _ => .error "expecting value"
      else if c = 'f' then
        match rest with
        | 'a' :: 'l' :: 's' :: 'e' :: rest1 => .ok (.bool false, rest1)
        | _ => .error "expecting value"
      else if c = '"' then
        match parseStrBody rest with
        | .ok (sb, r) => .ok (.str (String.mk sb), r)
        | .error msg => .error msg
      else if c = '[' then
        match skipWs rest with
        | ']' :: rest2 => .ok (.arr .nil, rest2)
        | _ =>
          match parseItems f rest with
          | .ok (items, r) => .ok (.arr items, r)
          | .error msg => .error msg
      else if c = '{' then
        match skipWs rest with
        | '}' :: rest2 => .ok (.obj .nil, rest2)
        | _ =>
          match parseMembers f rest with
          | .ok (fields, r) => .ok (.obj fields, r)
          | .error msg => .error msg
      else parseNumber (c :: rest)
termination_by (fuel, 0)

/-- Read the elements of a nonempty array, consuming the closing bracket. -/
def parseItems (fuel : Nat) (cs : List Char) : Except String (JsonItems × List Char) :=
  match fuel with
  | 0 => .error "input too deeply nested"
  | f + 1 =>
    match parseValue f cs with
    | .error msg => .error msg
    | .ok (v, cs1) =>
      match skipWs cs1 with
      | ',' :: rest =>
        match parseItems f rest with
        | .ok (items, r) => .ok (.cons v items, r)
        | .error msg => .error msg
      | ']' :: rest => .ok (.cons v .nil, rest)
      | _ => .error "expecting comma or closing bracket"
termination_by (fuel, 1)

/-- Read the members of a nonempty object, consuming the closing brace. -/
def parseMembers (fuel : Nat) (cs : List Char) : Except String (JsonFields × List Char) :=
  match fuel with
  | 0 => .error "input too deeply nested"
  | f + 1 =>
    match skipWs cs with
    | '"' :: rest =>
      match parseStrBody rest with
      | .error msg => .error msg
      | .ok (k, cs1) =>
        match skipWs cs1 with
        | ':' :: cs2 =>
          match parseValue f cs2 with
          | .error msg => .error msg
          | .ok (v, cs3) =>
            match skipWs cs3 with
            | ',' :: rest2 =>
              match parseMembers f rest2 with
              | .ok (fields, r) => .ok (.cons (String.mk k) v fields, r)
              | .error msg => .error msg
            | '}' :: rest2 => .ok (.cons (String.mk k) v .nil, rest2)
            | _ => .error "expecting comma or closing brace"
        | _ => .error "expecting colon"
    | _ => .error "expecting property name"
termination_by (fuel, 1)

end

/-- Model of json.loads: parse one value and require only whitespace after
it.  The fuel given to the value reader is bounded by the input length,
which suffices for any parseable input. -/
def json_loads (s : String) : Except String Json :=
  match parseValue (s.data.length + 1) s.data with
  | .ok (v, rest) =>
    if skipWs rest = [] then .ok v else .error "extra data"
  | .error msg => .error msg

/-- Only whitespace characters. -/
def wsOnly (cs : List Char) : Bool := cs.all isWsCh

/-- A list whose head cannot extend a JSON number: used to state that the
characters a renderer writes after a number stop the number reader. -/
def stopOk : List Char → Bool
  | [] => true
  | c :: _ => !(isDigitCh c || c = '.' || c = 'e' || c = 'E')

mutual

/-- Fuel sufficient for parseValue to read back the rendering of a value. -/
def jfuel (j : Json) : Nat :=
  match j with
  | .arr (.cons h t) => 1 + jfuelItems h t
  | .obj (.cons k v t) => 1 + jfuelFields k v t
  | _ => 1
termination_by sizeOf j

/-- Fuel sufficient for parseItems on a nonempty list of elements. -/
def jfuelItems (h : Json) (t : JsonItems) : Nat :=
  1 + jfuel h +
    (match t with
     | .nil => 0
     | .cons h2 t2 => jfuelItems h2 t2)
termination_by sizeOf (JsonItems.cons h t)

/-- Fuel sufficient for parseMembers on a nonempty list of members. -/
def jfuelFields (_k : String) (v : Json) (t : JsonFields) : Nat :=
  1 + jfuel v +
    (match t with
     | .nil => 0
     | .cons k2 v2 t2 => jfuelFields k2 v2 t2)
termination_by sizeOf (JsonFields.cons _k v t)

end

/-- Python str.strip with no argument, restricted to the ASCII whitespace
characters that occur in practice: remove leading and trailing whitespace. -/
def pyStripWs (c : Char) : Bool :=
  c = ' ' || c = '\t' || c = '\n' || c = '\r' || c = '\x0b' || c = '\x0c'

/-- Model of the Python method str.strip on stderr output. -/
def pyStrip (s : String) : String :=
  String.mk (((s.data.dropWhile pyStripWs).reverse.dropWhile pyStripWs).reverse)

/-- Python exceptions that the modelled external calls can raise.  The
constructor other stands for every exception type the script does not
catch by name, carrying the str of the exception. -/
inductive PyExc where
  | noCredentialsError : PyExc
  | endpointConnectionError : String → PyExc
  | clientError : String → PyExc
  | fileNotFoundError : String → PyExc
  | other : String → PyExc
deriving DecidableEq

/-- The str of an exception, as interpolated by an f-string. -/
def pyExcMsg : PyExc → String
  | .noCredentialsError => "Unable to locate credentials"
  | .endpointConnectionError m => m
  | .clientError m => m
  | .fileNotFoundError m => m
  | .other m => m

/-- Result value of the two check functions: the Python pair
(True, response) or (False, message), written as a tagged sum. -/
inductive CheckOutcome where
  | success : Json → CheckOutcome
  | failure : String → CheckOutcome

/-- Environment of check_with_boto3: the outcome of the import statement
of boto3 and botocore.exceptions, and the outcome of constructing the STS
client and calling get_caller_identity. -/
structure SdkEnv where
  importBoto3 : Except PyExc Unit
  stsCall : Except PyExc Json

/-- Shallow embedding of check_with_boto3 (src/scripts/check_aws.py lines
15 to 33).  The first try/except converts any import failure into the
boto3-not-available failure; the second converts each exception of the
STS call according to the except chain, ending in a catch-all. -/
def check_with_boto3 (env : SdkEnv) : Except PyExc CheckOutcome :=
  match env.importBoto3 with
  | .error _ => .ok (.failure "boto3-not-available")
  | .ok _ =>
    match env.stsCall with
    | .ok resp => .ok (.success resp)
    | .error .noCredentialsError => .ok (.failure "no-credentials")
    | .error (.endpointConnectionError m) => .ok (.failure ("endpoint-error: " ++ m))
    | .error (.clientError m) => .ok (.failure ("client-error: " ++ m))
    | .error e => .ok (.failure ("unknown-error: " ++ pyExcMsg e))

/-- A completed subprocess, as returned by subprocess.run with
capture_output=True and text=True. -/
structure ProcResult where
  returncode : Int
  stdout : String
  stderr : String

/-- Environment of check_with_awscli: the outcome of the subprocess.run
call on the aws command. -/
structure CliEnv where
  run : Except PyExc ProcResult

/-- Shallow embedding of check_with_awscli (src/scripts/check_aws.py lines
36 to 48).  Only FileNotFoundError is caught around subprocess.run; any
other exception of that call propagates.  A nonzero exit status yields the
aws-cli-error failure carrying the stripped stderr; then json.loads on
stdout is attempted, any parse exception becoming the parse-error
failure. -/
def check_with_awscli (env : CliEnv) : Except PyExc CheckOutcome :=
  match env.run with
  | .error (.fileNotFoundError _) => .ok (.failure "aws-cli-not-found")
  | .error e => .error e
  | .ok proc =>
    if proc.returncode ≠ 0 then
      .ok (.failure ("aws-cli-error: " ++ pyStrip proc.stderr))
    else
      match json_loads proc.stdout with
      | .ok j => .ok (.success j)
      | .error msg => .ok (.failure ("parse-error: " ++ msg))

/-- The whole environment a run of the script observes: the outcome of
importing python-dotenv (line 8), the outcome of calling load_dotenv
(lines 13 and 55), and the environments of the two check functions. -/
structure World where
  dotenvImport : Except PyExc Unit
  dotenvLoad : Except PyExc Unit
  sdk : SdkEnv
  cli : CliEnv

/-- Observable outcome of a normal return of main: the arguments of the
print calls in order, the argument of the sys.exit call, and whether
check_with_awscli was invoked (the only site that spawns a subprocess). -/
structure MainResult where
  output : List String
  exitCode : Nat
  cliInvoked : Bool
deriving DecidableEq

/-- Shallow embedding of main (src/scripts/check_aws.py lines 51 to 81).
The guarded load_dotenv call swallows any exception and has no further
effect, so it does not appear in the result; an exception escaping
check_with_awscli propagates out of main. -/
def main (w : World) : Except PyExc MainResult :=
  match check_with_boto3 w.sdk with
  | .error e => .error e
  | .ok (.success data) =>
      .ok ⟨["AWS reachable via boto3:", json_dumps data], 0, false⟩
  | .ok (.failure data) =>
    if data = "boto3-not-available" then
      match check_with_awscli w.cli with
      | .error e => .error e
      | .ok (.success data2) =>
          .ok ⟨["AWS reachable via aws-cli:", json_dumps data2], 0, true⟩
      | .ok (.failure data2) =>
          .ok ⟨["AWS check failed (aws-cli): " ++ data2], 3, true⟩
    else if data = "no-credentials" then
      .ok ⟨["AWS check failed: no credentials available for boto3"], 2, false⟩
    else
      .ok ⟨["AWS check failed (boto3): " ++ data], 4, false⟩

/-- The whole process run: module import first executes line 8, the
unguarded import of load_dotenv, then line 13, the unguarded module-level
load_dotenv call, and only then main.  An exception in either unguarded
step aborts the process before the check runs. -/
def program (w : World) : Except PyExc MainResult :=
  match w.dotenvImport with
  | .error e => .error e
  | .ok _ =>
    match w.dotenvLoad with
    | .error e => .error e
    | .ok _ => main w

/-- The five terminal states of the state machine described by the spec. -/
inductive Terminal where
  | primarySuccess : Terminal
  | fallbackSuccess : Terminal
  | fallbackFailure : Terminal
  | noCredentials : Terminal
  | otherPrimaryFailure : Terminal
deriving DecidableEq

/-- The exit code the spec assigns to each terminal state. -/
def exitOf : Terminal → Nat
  | .primarySuccess => 0
  | .fallbackSuccess => 0
  | .fallbackFailure => 3
  | .noCredentials => 2
  | .otherPrimaryFailure => 4

/-- Which terminal state a given environment drives the run into, stated
through the embedded check functions; none when a run does not reach a
terminal state because an uncaught exception escapes. -/
def terminalOf (w : World) : Option Terminal :=
  match check_with_boto3 w.sdk with
  | .error _ => none
  | .ok (.success _) => some .primarySuccess
  | .ok (.failure m) =>
    if m = "boto3-not-available" then
      match check_with_awscli w.cli with
      | .error _ => none
      | .ok (.success _) => some .fallbackSuccess
      | .ok (.failure _) => some .fallbackFailure
    else if m = "no-credentials" then some .noCredentials
    else some .otherPrimaryFailure

/-- A sample identity payload, as STS GetCallerIdentity returns. -/
def idPayload : Json :=
  .obj (.cons "UserId" (.str "AIDAEXAMPLE")
    (.cons "Account" (.str "123456789012")
      (.cons "Arn" (.str "arn:aws:iam::123456789012:user/test") .nil)))

/-- Environment where boto3 imports and the STS call succeeds. -/
def sdkOk : SdkEnv := { importBoto3 := .ok (), stsCall := .ok idPayload }

/-- Environment where importing boto3 raises ModuleNotFoundError. -/
def sdkNoBoto : SdkEnv :=
  { importBoto3 := .error (.other "No module named boto3"), stsCall := .ok idPayload }

/-- Environment where the STS call raises NoCredentialsError. -/
def sdkNoCreds : SdkEnv := { importBoto3 := .ok (), stsCall := .error .noCredentialsError }

/-- Environment where the aws subprocess succeeds with empty JSON output. -/
def cliOk : CliEnv :=
  { run := .ok { returncode := 0, stdout := "\x7b\x7d", stderr := "" } }

/-- Environment where the aws subprocess exits 1 complaining about credentials. -/
def cliNoCreds : CliEnv :=
  { run := .ok { returncode := 1, stdout := "", stderr := "Unable to locate credentials" } }

/-- Environment where the aws binary is not on the PATH. -/
def cliMissing : CliEnv := { run := .error (.fileNotFoundError "aws") }

/-- World where the primary path succeeds. -/
def w_ok : World :=
  { dotenvImport := .ok (), dotenvLoad := .ok (), sdk := sdkOk, cli := cliMissing }

/-- World where boto3 is missing and the fallback subprocess exits 1. -/
def w_c3 : World :=
  { dotenvImport := .ok (), dotenvLoad := .ok (), sdk := sdkNoBoto, cli := cliNoCreds }

/-- World where python-dotenv is not installed. -/
def w_c4 : World :=
  { dotenvImport := .error (.other "No module named dotenv"), dotenvLoad := .ok (),
    sdk := sdkOk, cli := cliMissing }

/-- World where the primary path finds no credentials. -/
def w_nc : World :=
  { dotenvImport := .ok (), dotenvLoad := .ok (), sdk := sdkNoCreds, cli := cliMissing }

/-- World where boto3 is missing and the fallback succeeds. -/
def w_fb : World :=
  { dotenvImport := .ok (), dotenvLoad := .ok (), sdk := sdkNoBoto, cli := cliOk }

theorem char_ne_of_toNat_ne {c d : Char} (h : c.toNat ≠ d.toNat) : c ≠ d :=
  fun he => h (he ▸ rfl)

theorem toNat_ofNat_valid {n : Nat} (h : n.isValidChar) : (Char.ofNat n).toNat = n := by
  rw [Char.ofNat, dif_pos h]; rfl

theorem char_valid_nat (c : Char) :
    c.toNat < 55296 ∨ (57343 < c.toNat ∧ c.toNat < 1114112) := c.valid

theorem toNat_digitCh {d : Nat} (h : d < 10) : (digitCh d).toNat = 48 + d :=
  toNat_ofNat_valid (Or.inl (by omega))

theorem isDigitCh_digitCh {d : Nat} (h : d < 10) : isDigitCh (digitCh d) = true := by
  simp only [isDigitCh, toNat_digitCh h, Bool.and_eq_true, decide_eq_true_eq]
  omega

theorem digitVal_digitCh {d : Nat} (h : d < 10) : digitVal (digitCh d) = d := by
  simp [digitVal, toNat_digitCh h]

theorem isDigitCh_toNat {c : Char} (h : isDigitCh c = true) :
    48 ≤ c.toNat ∧ c.toNat ≤ 57 := by
  simpa only [isDigitCh, Bool.and_eq_true, decide_eq_true_eq] using h

theorem digit_not_ws {c : Char} (h : isDigitCh c = true) : isWsCh c = false := by
  have hb := isDigitCh_toNat h
  have h1 : c ≠ ' ' := char_ne_of_toNat_ne (by simp; omega)
  have h2 : c ≠ '\t' := char_ne_of_toNat_ne (by simp; omega)
  have h3 : c ≠ '\n' := char_ne_of_toNat_ne (by simp; omega)
  have h4 : c ≠ '\r' := char_ne_of_toNat_ne (by simp; omega)
  simp [isWsCh, h1, h2, h3, h4]

theorem digit_head_ne {c d : Char} (h : isDigitCh c = true)
    (hd : d.toNat < 48 ∨ 57 < d.toNat) : c ≠ d := by
  have hb := isDigitCh_toNat h
  exact char_ne_of_toNat_ne (by omega)

theorem skipWs_cons_of_not_ws {c : Char} (h : isWsCh c = false) (cs : List Char) :
    skipWs (c :: cs) = c :: cs := by
  simp [skipWs, h]

theorem skipWs_append_ws {pre : List Char} (h : wsOnly pre = true) (x : List Char) :
    skipWs (pre ++ x) = skipWs x := by
  induction pre with
  | nil => rfl
  | cons c p ih =>
    simp only [wsOnly, List.all_cons, Bool.and_eq_true] at h
    simp only [List.cons_append, skipWs, h.1, if_true]
    exact ih (by simp [wsOnly, h.2])

theorem takeWhile_append_stop {p : Char → Bool} :
    ∀ {l r : List Char}, (∀ c ∈ l, p c = true) →
      (∀ c, r.head? = some c → p c = false) →
      (l ++ r).takeWhile p = l ∧ (l ++ r).dropWhile p = r := by
  intro l r hl hr
  induction l with
  | nil =>
    simp only [List.nil_append]
    cases r with
    | nil => simp
    | cons c r2 => simp [List.takeWhile_cons, List.dropWhile_cons, hr c rfl]
  | cons c l2 ih =>
    have hc := hl c (by simp)
    have := ih (fun x hx => hl x (by simp [hx]))
    simp [List.takeWhile_cons, List.dropWhile_cons, hc, this.1, this.2]

theorem foldr_digits_eq_ofDigits :
    ∀ (ds : List Nat), (∀ d ∈ ds, d < 10) →
      List.foldr (fun d a => 10 * a + digitVal (digitCh d)) 0 ds = Nat.ofDigits 10 ds := by
  intro ds hds
  induction ds with
  | nil => simp [Nat.ofDigits]
  | cons d ds2 ih =>
    have hd : d < 10 := hds d (by simp)
    have := ih (fun x hx => hds x (by simp [hx]))
    simp only [List.foldr_cons, this, Nat.ofDigits_cons, digitVal_digitCh hd]
    omega

theorem digitsVal_natChars (n : Nat) : digitsVal (natChars n) = n := by
  by_cases h0 : n = 0
  · subst h0; decide
  · unfold natChars digitsVal
    rw [if_neg h0, List.foldl_reverse, List.foldr_map]
    have : ∀ d ∈ Nat.digits 10 n, d < 10 :=
      fun d hd => Nat.digits_lt_base (by omega) hd
    rw [foldr_digits_eq_ofDigits _ this]
    exact Nat.ofDigits_digits 10 n

theorem natChars_all_digits {n : Nat} : ∀ c ∈ natChars n, isDigitCh c = true := by
  intro c hc
  unfold natChars at hc
  by_cases h0 : n = 0
  · rw [if_pos h0] at hc
    simp at hc
    subst hc; decide
  · rw [if_neg h0, List.mem_reverse, List.mem_map] at hc
    obtain ⟨d, hd, rfl⟩ := hc
    exact isDigitCh_digitCh (Nat.digits_lt_base (by omega) hd)

theorem natChars_ne_nil {n : Nat} : natChars n ≠ [] := by
  unfold natChars
  by_cases h0 : n = 0
  · simp [h0]
  · rw [if_neg h0]
    simp [Nat.digits_ne_nil_iff_ne_zero.mpr h0]

theorem stopOk_head_not_digit {r : List Char} (h : stopOk r = true) :
    ∀ c, r.head? = some c → isDigitCh c = false := by
  intro c hc
  cases r with
  | nil => simp at hc
  | cons c0 r2 =>
    simp only [List.head?_cons, Option.some.injEq] at hc
    subst hc
    simp only [stopOk, Bool.not_eq_true', Bool.or_eq_false_iff] at h
    exact h.1.1.1

theorem parseNumTail_natChars {n : Nat} (neg : Bool) {rest : List Char}
    (hstop : stopOk rest = true) :
    parseNumTail neg (natChars n ++ rest) =
      .ok (.num (if neg then -(n : Int) else (n : Int)), rest) := by
  have hsplit := takeWhile_append_stop (p := isDigitCh) (l := natChars n) (r := rest)
    natChars_all_digits (stopOk_head_not_digit hstop)
  unfold parseNumTail
  rw [hsplit.1, hsplit.2]
  have hne : (natChars n).isEmpty = false := by
    cases h : natChars n with
    | nil => exact absurd h natChars_ne_nil
    | cons a b => simp
  rw [if_neg (by simp [hne])]
  cases hr : rest with
  | nil => simp [digitsVal_natChars]
  | cons c r2 =>
    have hcdot : ¬(c = '.' || c = 'e' || c = 'E') = true := by
      subst hr
      simp only [stopOk, Bool.not_eq_true', Bool.or_eq_false_iff] at hstop
      simp [hstop.1.1.2, hstop.1.2, hstop.2]
    simp only [if_neg hcdot]
    simp [digitsVal_natChars]

theorem parseNumber_cons (c : Char) (cs0 : List Char) :
    parseNumber (c :: cs0) =
      if c = '-' then parseNumTail true cs0 else parseNumTail false (c :: cs0) := rfl

theorem parseNumber_intChars {i : Int} {rest : List Char} (hstop : stopOk rest = true) :
    parseNumber (intChars i ++ rest) = .ok (.num i, rest) := by
  cases i with
  | ofNat n =>
    show parseNumber (natChars n ++ rest) = _
    rcases hnc : natChars n with _ | ⟨c, cs0⟩
    · exact absurd hnc natChars_ne_nil
    · have hdig : isDigitCh c = true := natChars_all_digits c (by rw [hnc]; simp)
      have hnotneg : c ≠ '-' := digit_head_ne hdig (by decide)
      rw [List.cons_append, parseNumber_cons, if_neg hnotneg, ← List.cons_append,
        ← hnc, parseNumTail_natChars false hstop]
      simp
  | negSucc m =>
    show parseNumber ('-' :: (natChars (m + 1) ++ rest)) = _
    rw [parseNumber_cons, if_pos rfl, parseNumTail_natChars true hstop]
    simp only [if_pos, Int.negSucc_eq]
    norm_num

theorem hexVal_hexCh {d : Nat} (h : d < 16) : hexVal (hexCh d) = some d := by
  interval_cases d <;> decide

theorem nibbles_recombine {n : Nat} (h : n < 65536) :
    ((n / 4096 % 16 * 16 + n / 256 % 16) * 16 + n / 16 % 16) * 16 + n % 16 = n := by
  omega

theorem decodeOne_shortcut {e dec : Char} (h : shortEscape e = some dec)
    (he : e ≠ 'u') (tail : List Char) :
    decodeOne ('\\' :: e :: tail) = .ok (dec, tail) := by
  simp only [decodeOne, eq_self_iff_true, if_true, if_neg he, h]

theorem decodeOne_surrogate {hi lo : Nat} (hhi : hi < 1024) (hlo : lo < 1024)
    (tail : List Char) :
    decodeOne ('\\' :: 'u' :: hex4 (55296 + hi) ++ '\\' :: 'u' :: hex4 (56320 + lo) ++ tail)
      = .ok (Char.ofNat (65536 + hi * 1024 + lo), tail) := by
  have hh1 : 55296 + hi < 65536 := by omega
  have hl1 : 56320 + lo < 65536 := by omega
  simp only [List.cons_append, hex4, List.append_assoc, List.nil_append]
  simp only [decodeOne, eq_self_iff_true, if_true,
    hexVal_hexCh (show (55296 + hi) / 4096 % 16 < 16 by omega),
    hexVal_hexCh (show (55296 + hi) / 256 % 16 < 16 by omega),
    hexVal_hexCh (show (55296 + hi) / 16 % 16 < 16 by omega),
    hexVal_hexCh (show (55296 + hi) % 16 < 16 by omega)]
  rw [nibbles_recombine hh1]
  rw [if_pos (show 55296 ≤ 55296 + hi ∧ 55296 + hi < 56320 by omega)]
  simp only [and_self, if_true]
  simp only [hexVal_hexCh (show (56320 + lo) / 4096 % 16 < 16 by omega),
    hexVal_hexCh (show (56320 + lo) / 256 % 16 < 16 by omega),
    hexVal_hexCh (show (56320 + lo) / 16 % 16 < 16 by omega),
    hexVal_hexCh (show (56320 + lo) % 16 < 16 by omega)]
  rw [nibbles_recombine hl1]
  rw [if_pos (show 56320 ≤ 56320 + lo ∧ 56320 + lo < 57344 by omega)]
  rw [show 65536 + (55296 + hi - 55296) * 1024 + (56320 + lo - 56320) =
        65536 + hi * 1024 + lo by omega]

theorem decodeOne_escapeChar (c : Char) (tail : List Char) :
    decodeOne (escapeChar c ++ tail) = .ok (c, tail) := by
  have hv := char_valid_nat c
  by_cases h1 : c = '"'
  · subst h1
    rw [show escapeChar '"' = ['\\', '"'] from by decide, List.cons_append,
      List.cons_append, List.nil_append]
    exact decodeOne_shortcut (by decide) (by decide) tail
  by_cases h2 : c = '\\'
  · subst h2
    rw [show escapeChar '\\' = ['\\', '\\'] from by decide, List.cons_append,
      List.cons_append, List.nil_append]
    exact decodeOne_shortcut (by decide) (by decide) tail
  by_cases h3 : c = '\x08'
  · subst h3
    rw [show escapeChar '\x08' = ['\\', 'b'] from by decide, List.cons_append,
      List.cons_append, List.nil_append]
    exact decodeOne_shortcut (by decide) (by decide) tail
  by_cases h4 : c = '\x09'
  · subst h4
    rw [show escapeChar '\x09' = ['\\', 't'] from by decide, List.cons_append,
      List.cons_append, List.nil_append]
    exact decodeOne_shortcut (by decide) (by decide) tail
  by_cases h5 : c = '\x0a'
  · subst h5
    rw [show escapeChar '\x0a' = ['\\', 'n'] from by decide, List.cons_append,
      List.cons_append, List.nil_append]
    exact decodeOne_shortcut (by decide) (by decide) tail
  by_cases h6 : c = '\x0c'
  · subst h6
    rw [show escapeChar '\x0c' = ['\\', 'f'] from by decide, List.cons_append,
      List.cons_append, List.nil_append]
    exact decodeOne_shortcut (by decide) (by decide) tail
  by_cases h7 : c = '\x0d'
  · subst h7
    rw [show escapeChar '\x0d' = ['\\', 'r'] from by decide, List.cons_append,
      List.cons_append, List.nil_append]
    exact decodeOne_shortcut (by decide) (by decide) tail
  by_cases h8 : 32 ≤ c.toNat ∧ c.toNat ≤ 126
  · have hesc : escapeChar c = [c] := by
      simp only [escapeChar, if_neg h1, if_neg h2, if_neg h3, if_neg h4, if_neg h5,
        if_neg h6, if_neg h7, if_pos h8]
    rw [hesc, List.cons_append, List.nil_append]
    simp only [decodeOne, if_neg h2, if_neg (show ¬ c.toNat < 32 by omega)]
  by_cases h9 : c.toNat < 65536
  · have hesc : escapeChar c = '\\' :: 'u' :: hex4 c.toNat := by
      simp only [escapeChar, if_neg h1, if_neg h2, if_neg h3, if_neg h4, if_neg h5,
        if_neg h6, if_neg h7, if_neg h8, if_pos h9]
    rw [hesc]
    simp only [List.cons_append, hex4, List.nil_append]
    simp only [decodeOne, eq_self_iff_true, if_true,
      hexVal_hexCh (show c.toNat / 4096 % 16 < 16 by omega),
      hexVal_hexCh (show c.toNat / 256 % 16 < 16 by omega),
      hexVal_hexCh (show c.toNat / 16 % 16 < 16 by omega),
      hexVal_hexCh (show c.toNat % 16 < 16 by omega)]
    rw [nibbles_recombine h9]
    rw [if_neg (show ¬(55296 ≤ c.toNat ∧ c.toNat < 56320) by omega),
      if_neg (show ¬(56320 ≤ c.toNat ∧ c.toNat < 57344) by omega)]
    simp only [Char.ofNat_toNat]
  · have hesc : escapeChar c =
        '\\' :: 'u' :: hex4 (55296 + (c.toNat - 65536) / 1024) ++
          '\\' :: 'u' :: hex4 (56320 + (c.toNat - 65536) % 1024) := by
      simp only [escapeChar, if_neg h1, if_neg h2, if_neg h3, if_neg h4, if_neg h5,
        if_neg h6, if_neg h7, if_neg h8, if_neg h9]
    have hdiv : (c.toNat - 65536) / 1024 < 1024 := by
      have hlt : c.toNat < 1114112 := by omega
      omega
    have hmod : (c.toNat - 65536) % 1024 < 1024 := Nat.mod_lt _ (by omega)
    rw [hesc, decodeOne_surrogate hdiv hmod tail,
      show 65536 + (c.toNat - 65536) / 1024 * 1024 + (c.toNat - 65536) % 1024 = c.toNat
        by omega,
      Char.ofNat_toNat]

theorem escapeChar_ne_nil (c : Char) : escapeChar c ≠ [] := by
  unfold escapeChar
  repeat' split
  all_goals simp

theorem escapeChar_head_ne_quote {c e0 : Char} {etail : List Char}
    (heq : escapeChar c = e0 :: etail) : e0 ≠ '"' := by
  unfold escapeChar at heq
  repeat' split at heq
  all_goals (try simp only [List.cons_append] at heq)
  all_goals (cases heq; first | decide | assumption)

theorem parseStrBody_step_ok {c ch : Char} {rest rest2 : List Char} (h : c ≠ '"')
    (hdec : decodeOne (c :: rest) = .ok (ch, rest2)) :
    parseStrBody (c :: rest) =
      match parseStrBody rest2 with
      | .ok (sb, r) => .ok (ch :: sb, r)
      | .error msg => .error msg := by
  rw [parseStrBody, if_neg h]
  split
  · rename_i a b hmatch
    rw [hdec] at hmatch
    have hab : ch = a ∧ rest2 = b := by simpa using hmatch
    rw [hab.1, hab.2]
  · rename_i msg hmatch
    rw [hdec] at hmatch
    simp at hmatch

theorem parseStrBody_escList (l : List Char) (rest : List Char) :
    parseStrBody (escList l ++ '"' :: rest) = .ok (l, rest) := by
  induction l with
  | nil =>
    show parseStrBody ('"' :: rest) = _
    rw [parseStrBody, if_pos rfl]
  | cons c l2 ih =>
    rw [escList, List.append_assoc]
    have hstep : decodeOne (escapeChar c ++ (escList l2 ++ '"' :: rest)) =
        .ok (c, escList l2 ++ '"' :: rest) := decodeOne_escapeChar c _
    rcases hec : escapeChar c with _ | ⟨e0, etail⟩
    · exact absurd hec (escapeChar_ne_nil c)
    · have he0 : e0 ≠ '"' := escapeChar_head_ne_quote hec
      rw [hec] at hstep
      rw [List.cons_append] at hstep ⊢
      rw [parseStrBody_step_ok he0 hstep, ih]

theorem string_mk_data (s : String) : String.mk s.data = s := rfl

theorem wsOnly_indentChars (k : Nat) : wsOnly (indentChars k) = true := by
  simp only [wsOnly, indentChars, List.all_eq_true, List.mem_replicate]
  rintro c ⟨h1, rfl⟩
  decide

theorem wsOnly_nl_indent (k : Nat) : wsOnly ('\n' :: indentChars k) = true := by
  simp only [wsOnly, List.all_cons, Bool.and_eq_true]
  exact ⟨by decide, wsOnly_indentChars k⟩

theorem wsOnly_nil : wsOnly ([] : List Char) = true := rfl

theorem wsOnly_space : wsOnly [' '] = true := by decide

theorem skipWs_ws_lead {pre : List Char} (h : wsOnly pre = true) {c : Char}
    (hc : isWsCh c = false) (x : List Char) :
    skipWs (pre ++ c :: x) = c :: x := by
  rw [skipWs_append_ws h, skipWs_cons_of_not_ws hc]

theorem jfuel_pos (j : Json) : 1 ≤ jfuel j := by
  cases j with
  | arr t => cases t <;> simp [jfuel]
  | obj t => cases t <;> simp [jfuel]
  | _ => simp [jfuel]

theorem jfuelItems_pos (h : Json) (t : JsonItems) : 1 ≤ jfuelItems h t := by
  cases t <;> (simp only [jfuelItems]; omega)

theorem jfuelFields_pos (k : String) (v : Json) (t : JsonFields) :
    1 ≤ jfuelFields k v t := by
  cases t <;> (simp only [jfuelFields]; omega)

theorem renderL_head (lvl : Nat) (j : Json) :
    ∃ c cs2, renderL lvl j = c :: cs2 ∧ isWsCh c = false ∧ c ≠ ']' ∧ c ≠ '}' := by
  cases j with
  | null =>
    exact ⟨'n', ['u', 'l', 'l'], by simp only [renderL], by decide, by decide, by decide⟩
  | bool b =>
    cases b with
    | true =>
      refine ⟨'t', ['r', 'u', 'e'], by simp only [renderL, Bool.cond_true], ?_, ?_, ?_⟩
        <;> decide
    | false =>
      refine ⟨'f', ['a', 'l', 's', 'e'], by simp only [renderL, Bool.cond_false], ?_, ?_, ?_⟩
        <;> decide
  | num i =>
    cases i with
    | ofNat n =>
      rcases hnc : natChars n with _ | ⟨c0, cs0⟩
      · exact absurd hnc natChars_ne_nil
      · have hdig : isDigitCh c0 = true := natChars_all_digits c0 (by rw [hnc]; simp)
        exact ⟨c0, cs0, by simp only [renderL, intChars]; exact hnc, digit_not_ws hdig,
          digit_head_ne hdig (by decide), digit_head_ne hdig (by decide)⟩
    | negSucc m =>
      exact ⟨'-', natChars (m + 1), by simp only [renderL, intChars], by decide,
        by decide, by decide⟩
  | str s =>
    exact ⟨'"', escList s.data ++ ['"'], by simp only [renderL, strChars], by decide,
      by decide, by decide⟩
  | arr t =>
    cases t with
    | nil => exact ⟨'[', [']'], by simp only [renderL], by decide, by decide, by decide⟩
    | cons h t2 =>
      exact ⟨'[', '\n' :: (renderItems (lvl + 1) h t2 ++ '\n' :: (indentChars lvl ++ [']'])),
        by simp only [renderL], by decide, by decide, by decide⟩
  | obj t =>
    cases t with
    | nil => exact ⟨'{', ['}'], by simp only [renderL], by decide, by decide, by decide⟩
    | cons k v t2 =>
      exact ⟨'{', '\n' :: (renderFields (lvl + 1) k v t2 ++ '\n' :: (indentChars lvl ++ ['}'])),
        by simp only [renderL], by decide, by decide, by decide⟩

theorem skipWs_cons_ws {c : Char} (h : isWsCh c = true) (x : List Char) :
    skipWs (c :: x) = skipWs x := by
  simp [skipWs, h]

theorem intChars_head (i : Int) :
    ∃ c0 cs0, intChars i = c0 :: cs0 ∧ isWsCh c0 = false ∧
      c0 ≠ '"' ∧ c0 ≠ '[' ∧ c0 ≠ '{' ∧ c0 ≠ 'n' ∧ c0 ≠ 't' ∧ c0 ≠ 'f' := by
  cases i with
  | ofNat n =>
    rcases hnc : natChars n with _ | ⟨c0, cs0⟩
    · exact absurd hnc natChars_ne_nil
    · have hdig : isDigitCh c0 = true := natChars_all_digits c0 (by rw [hnc]; simp)
      exact ⟨c0, cs0, hnc, digit_not_ws hdig, digit_head_ne hdig (by decide),
        digit_head_ne hdig (by decide), digit_head_ne hdig (by decide),
        digit_head_ne hdig (by decide), digit_head_ne hdig (by decide),
        digit_head_ne hdig (by decide)⟩
  | negSucc m =>
    exact ⟨'-', natChars (m + 1), rfl, rfl, char_ne_of_toNat_ne (by decide),
      char_ne_of_toNat_ne (by decide), char_ne_of_toNat_ne (by decide),
      char_ne_of_toNat_ne (by decide), char_ne_of_toNat_ne (by decide),
      char_ne_of_toNat_ne (by decide)⟩

theorem rt_null (f lvl : Nat) (pre rest : List Char) (hpre : wsOnly pre = true) :
    parseValue (f + 1) (pre ++ (renderL lvl Json.null ++ rest)) = .ok (.null, rest) := by
  simp only [renderL, List.cons_append, List.nil_append]
  rw [parseValue, skipWs_ws_lead hpre (by decide)]
  rfl

theorem rt_bool (f lvl : Nat) (b : Bool) (pre rest : List Char) (hpre : wsOnly pre = true) :
    parseValue (f + 1) (pre ++ (renderL lvl (Json.bool b) ++ rest)) = .ok (.bool b, rest) := by
  cases b with
  | true =>
    simp only [renderL, Bool.cond_true, List.cons_append, List.nil_append]
    rw [parseValue, skipWs_ws_lead hpre (by decide)]
    rfl
  | false =>
    simp only [renderL, Bool.cond_false, List.cons_append, List.nil_append]
    rw [parseValue, skipWs_ws_lead hpre (by decide)]
    rfl

theorem rt_str (f lvl : Nat) (s : String) (pre rest : List Char) (hpre : wsOnly pre = true) :
    parseValue (f + 1) (pre ++ (renderL lvl (Json.str s) ++ rest)) = .ok (.str s, rest) := by
  simp only [renderL, strChars, List.cons_append, List.nil_append, List.append_assoc]
  rw [parseValue, skipWs_ws_lead hpre (by decide)]
  simp only []
  rw [parseStrBody_escList]
  simp

theorem rt_num (f lvl : Nat) (i : Int) (pre rest : List Char) (hpre : wsOnly pre = true)
    (hstop : stopOk rest = true) :
    parseValue (f + 1) (pre ++ (renderL lvl (Json.num i) ++ rest)) = .ok (.num i, rest) := by
  simp only [renderL]
  obtain ⟨c0, cs0, hI, hws0, hq, hbl, hbr, hn, ht, hf⟩ := intChars_head i
  rw [hI, List.cons_append, parseValue, skipWs_ws_lead hpre hws0]
  simp only []
  rw [if_neg hn, if_neg ht, if_neg hf, if_neg hq, if_neg hbl, if_neg hbr,
    ← List.cons_append, ← hI, parseNumber_intChars hstop]

theorem rt_arr_nil (f lvl : Nat) (pre rest : List Char) (hpre : wsOnly pre = true) :
    parseValue (f + 1) (pre ++ (renderL lvl (Json.arr .nil) ++ rest)) =
      .ok (.arr .nil, rest) := by
  simp only [renderL, List.cons_append, List.nil_append]
  rw [parseValue, skipWs_ws_lead hpre (by decide)]
  simp only []
  rw [skipWs_cons_of_not_ws (by decide)]
  rfl

theorem rt_obj_nil (f lvl : Nat) (pre rest : List Char) (hpre : wsOnly pre = true) :
    parseValue (f + 1) (pre ++ (renderL lvl (Json.obj .nil) ++ rest)) =
      .ok (.obj .nil, rest) := by
  simp only [renderL, List.cons_append, List.nil_append]
  rw [parseValue, skipWs_ws_lead hpre (by decide)]
  simp only []
  rw [skipWs_cons_of_not_ws (by decide)]
  rfl

theorem stopOk_nl (x : List Char) : stopOk ('\n' :: x) = true := rfl

theorem stopOk_comma (x : List Char) : stopOk (',' :: x) = true := rfl

mutual

theorem rt_value (j : Json) : ∀ (fuel lvl : Nat) (pre rest : List Char),
    wsOnly pre = true → jfuel j ≤ fuel → stopOk rest = true →
    parseValue fuel (pre ++ (renderL lvl j ++ rest)) = .ok (j, rest) := by
  intro fuel lvl pre rest hpre hfuel hstop
  obtain ⟨f, rfl⟩ : ∃ f, fuel = f + 1 := ⟨fuel - 1, by have := jfuel_pos j; omega⟩
  cases j with
  | null => exact rt_null f lvl pre rest hpre
  | bool b => exact rt_bool f lvl b pre rest hpre
  | num i => exact rt_num f lvl i pre rest hpre hstop
  | str s => exact rt_str f lvl s pre rest hpre
  | arr t =>
    cases t with
    | nil => exact rt_arr_nil f lvl pre rest hpre
    | cons h t2 =>
      have hfi : jfuelItems h t2 ≤ f := by
        have he : jfuel (Json.arr (JsonItems.cons h t2)) = 1 + jfuelItems h t2 := by
          simp [jfuel]
        omega
      simp only [renderL, List.cons_append, List.nil_append, List.append_assoc]
      rw [parseValue, skipWs_ws_lead hpre (by decide)]
      simp only []
      rw [if_neg (show ('[' : Char) ≠ 'n' by decide),
        if_neg (show ('[' : Char) ≠ 't' by decide),
        if_neg (show ('[' : Char) ≠ 'f' by decide),
        if_neg (show ('[' : Char) ≠ '"' by decide), if_true]
      rw [rt_items h t2 f (lvl + 1) lvl rest hfi]
      obtain ⟨c0, cs0, hR, hws0, hbr1, hbr2⟩ := renderL_head (lvl + 1) h
      rw [skipWs_cons_ws (by decide), renderItems.eq_def]
      simp only [List.append_assoc, List.cons_append, List.singleton_append,
        List.nil_append]
      rw [skipWs_append_ws (wsOnly_indentChars (lvl + 1)), hR, List.cons_append,
        skipWs_cons_of_not_ws hws0]
      split
      · rename_i rest2 heq
        injection heq with h1 h2
        exact absurd h1 hbr1
      · rfl
  | obj t =>
    cases t with
    | nil => exact rt_obj_nil f lvl pre rest hpre
    | cons k v t2 =>
      have hfi : jfuelFields k v t2 ≤ f := by
        have he : jfuel (Json.obj (JsonFields.cons k v t2)) = 1 + jfuelFields k v t2 := by
          simp [jfuel]
        omega
      simp only [renderL, List.cons_append, List.nil_append, List.append_assoc]
      rw [parseValue, skipWs_ws_lead hpre (by decide)]
      simp only []
      rw [if_neg (show ('{' : Char) ≠ 'n' by decide),
        if_neg (show ('{' : Char) ≠ 't' by decide),
        if_neg (show ('{' : Char) ≠ 'f' by decide),
        if_neg (show ('{' : Char) ≠ '"' by decide),
        if_neg (show ('{' : Char) ≠ '[' by decide), if_true]
      rw [rt_fields k v t2 f (lvl + 1) lvl rest hfi]
      rw [skipWs_cons_ws (by decide), renderFields.eq_def, strChars]
      simp only [List.append_assoc, List.cons_append, List.singleton_append,
        List.nil_append]
      rw [skipWs_append_ws (wsOnly_indentChars (lvl + 1)),
        skipWs_cons_of_not_ws (by decide)]
      rfl
termination_by sizeOf j

theorem rt_items (h : Json) (t : JsonItems) : ∀ (fuel lvl lvl0 : Nat) (rest : List Char),
    jfuelItems h t ≤ fuel →
    parseItems fuel ('\n' :: (renderItems lvl h t ++ '\n' :: (indentChars lvl0 ++ ']' :: rest)))
      = .ok (.cons h t, rest) := by
  intro fuel lvl lvl0 rest hfuel
  obtain ⟨g, rfl⟩ : ∃ g, fuel = g + 1 := ⟨fuel - 1, by have := jfuelItems_pos h t; omega⟩
  rw [parseItems, renderItems.eq_def]
  cases t with
  | nil =>
    have hf2 : jfuel h ≤ g := by
      have he : jfuelItems h JsonItems.nil = 1 + jfuel h + 0 := by simp [jfuelItems]
      omega
    simp only [List.append_assoc, List.cons_append, List.nil_append, List.append_nil]
    have hval := rt_value h g lvl ('\n' :: indentChars lvl)
        ('\n' :: (indentChars lvl0 ++ (']' :: rest))) (wsOnly_nl_indent lvl) hf2 (stopOk_nl _)
    rw [List.cons_append] at hval
    rw [hval]
    simp only []
    rw [skipWs_cons_ws (by decide), skipWs_append_ws (wsOnly_indentChars lvl0),
      skipWs_cons_of_not_ws (by decide)]
    rfl
  | cons h2 t2 =>
    have hf2 : jfuel h ≤ g ∧ jfuelItems h2 t2 ≤ g := by
      have he : jfuelItems h (JsonItems.cons h2 t2) = 1 + jfuel h + jfuelItems h2 t2 := by
        simp [jfuelItems]
      omega
    simp only [List.append_assoc, List.cons_append, List.nil_append]
    have hval := rt_value h g lvl ('\n' :: indentChars lvl)
        (',' :: ('\n' :: (renderItems lvl h2 t2 ++ ('\n' :: (indentChars lvl0 ++ (']' :: rest))))))
        (wsOnly_nl_indent lvl) hf2.1 (stopOk_comma _)
    rw [List.cons_append] at hval
    rw [hval]
    simp only []
    rw [skipWs_cons_of_not_ws (by decide)]
    simp only []
    rw [rt_items h2 t2 g lvl lvl0 rest hf2.2]
termination_by sizeOf (JsonItems.cons h t)

theorem rt_fields (k : String) (v : Json) (t : JsonFields) :
    ∀ (fuel lvl lvl0 : Nat) (rest : List Char),
    jfuelFields k v t ≤ fuel →
    parseMembers fuel ('\n' :: (renderFields lvl k v t ++ '\n' :: (indentChars lvl0 ++ '}' :: rest)))
      = .ok (.cons k v t, rest) := by
  intro fuel lvl lvl0 rest hfuel
  obtain ⟨g, rfl⟩ : ∃ g, fuel = g + 1 := ⟨fuel - 1, by have := jfuelFields_pos k v t; omega⟩
  rw [parseMembers, renderFields.eq_def, strChars]
  cases t with
  | nil =>
    have hf2 : jfuel v ≤ g := by
      have he : jfuelFields k v JsonFields.nil = 1 + jfuel v + 0 := by simp [jfuelFields]
      omega
    simp only [List.append_assoc, List.cons_append, List.nil_append, List.append_nil]
    rw [skipWs_cons_ws (by decide), skipWs_append_ws (wsOnly_indentChars lvl),
      skipWs_cons_of_not_ws (by decide)]
    simp only []
    rw [parseStrBody_escList]
    simp only []
    rw [skipWs_cons_of_not_ws (by decide)]
    simp only []
    have hval := rt_value v g lvl [' '] ('\n' :: (indentChars lvl0 ++ ('}' :: rest)))
        wsOnly_space hf2 (stopOk_nl _)
    rw [List.singleton_append] at hval
    rw [hval]
    simp only []
    rw [skipWs_cons_ws (by decide), skipWs_append_ws (wsOnly_indentChars lvl0),
      skipWs_cons_of_not_ws (by decide)]
    rfl
  | cons k2 v2 t2 =>
    have hf2 : jfuel v ≤ g ∧ jfuelFields k2 v2 t2 ≤ g := by
      have he : jfuelFields k v (JsonFields.cons k2 v2 t2) =
          1 + jfuel v + jfuelFields k2 v2 t2 := by
        simp [jfuelFields]
      omega
    simp only [List.append_assoc, List.cons_append, List.nil_append]
    rw [skipWs_cons_ws (by decide), skipWs_append_ws (wsOnly_indentChars lvl),
      skipWs_cons_of_not_ws (by decide)]
    simp only []
    rw [parseStrBody_escList]
    simp only []
    rw [skipWs_cons_of_not_ws (by decide)]
    simp only []
    have hval := rt_value v g lvl [' ']
        (',' :: ('\n' :: (renderFields lvl k2 v2 t2 ++ ('\n' :: (indentChars lvl0 ++ ('}' :: rest))))))
        wsOnly_space hf2.1 (stopOk_comma _)
    rw [List.singleton_append] at hval
    rw [hval]
    simp only []
    rw [skipWs_cons_of_not_ws (by decide)]
    simp only []
    rw [rt_fields k2 v2 t2 g lvl lvl0 rest hf2.2]
termination_by sizeOf (JsonFields.cons k v t)

end

theorem intChars_length_pos (i : Int) : 1 ≤ (intChars i).length := by
  obtain ⟨c0, cs0, hI, _⟩ := intChars_head i
  simp [hI]

mutual

theorem jfuel_le_len (j : Json) : ∀ lvl : Nat, jfuel j ≤ (renderL lvl j).length := by
  intro lvl
  cases j with
  | null => simp [jfuel, renderL]
  | bool b => cases b <;> simp [jfuel, renderL]
  | num i =>
    have := intChars_length_pos i
    simp only [jfuel, renderL]
    omega
  | str s => simp [jfuel, renderL, strChars]
  | arr t =>
    cases t with
    | nil => simp [jfuel, renderL]
    | cons h t2 =>
      have hi := jfuelItems_le_len h t2 (lvl + 1) (by omega)
      simp only [jfuel, renderL, List.length_cons, List.length_append]
      omega
  | obj t =>
    cases t with
    | nil => simp [jfuel, renderL]
    | cons k v t2 =>
      have hi := jfuelFields_le_len k v t2 (lvl + 1) (by omega)
      simp only [jfuel, renderL, List.length_cons, List.length_append]
      omega
termination_by sizeOf j

theorem jfuelItems_le_len (h : Json) (t : JsonItems) :
    ∀ lvl : Nat, 1 ≤ lvl → jfuelItems h t ≤ (renderItems lvl h t).length := by
  intro lvl hl
  have hv := jfuel_le_len h lvl
  rw [renderItems.eq_def]
  cases t with
  | nil =>
    simp only [jfuelItems, List.length_append, indentChars, List.length_replicate,
      List.length_nil]
    omega
  | cons h2 t2 =>
    have hi := jfuelItems_le_len h2 t2 lvl hl
    simp only [jfuelItems, List.length_append, indentChars, List.length_replicate,
      List.length_cons]
    omega
termination_by sizeOf (JsonItems.cons h t)

theorem jfuelFields_le_len (k : String) (v : Json) (t : JsonFields) :
    ∀ lvl : Nat, 1 ≤ lvl → jfuelFields k v t ≤ (renderFields lvl k v t).length := by
  intro lvl hl
  have hv := jfuel_le_len v lvl
  rw [renderFields.eq_def]
  cases t with
  | nil =>
    simp only [jfuelFields, List.length_append, indentChars, List.length_replicate,
      List.length_cons, List.length_nil]
    omega
  | cons k2 v2 t2 =>
    have hi := jfuelFields_le_len k2 v2 t2 lvl hl
    simp only [jfuelFields, List.length_append, indentChars, List.length_replicate,
      List.length_cons]
    omega
termination_by sizeOf (JsonFields.cons k v t)

end

/-- Parsing the pretty-printed rendering of a JSON value gives the value
back: the embedded collaborators json.loads and json.dumps are inverse on
every JSON value the model can express. -/
theorem json_loads_dumps (v : Json) : json_loads (json_dumps v) = .ok v := by
  unfold json_loads json_dumps
  have h := rt_value v ((renderL 0 v).length + 1) 0 [] [] wsOnly_nil
    (by have := jfuel_le_len v 0; omega) (by decide)
  simp only [List.nil_append, List.append_nil] at h
  rw [show (String.mk (renderL 0 v)).data = renderL 0 v from rfl, h]
  rfl

theorem check_with_boto3_total (env : SdkEnv) : ∃ oc, check_with_boto3 env = .ok oc := by
  unfold check_with_boto3
  cases env.importBoto3 with
  | error e => exact ⟨_, rfl⟩
  | ok u =>
    cases env.stsCall with
    | ok p => exact ⟨_, rfl⟩
    | error e => cases e <;> exact ⟨_, rfl⟩

theorem check_with_boto3_failure_cases (env : SdkEnv) (m : String)
    (h : check_with_boto3 env = .ok (.failure m)) :
    m = "boto3-not-available" ∨ m = "no-credentials" ∨
      ∃ d, m = "endpoint-error: " ++ d ∨ m = "client-error: " ++ d ∨
        m = "unknown-error: " ++ d := by
  unfold check_with_boto3 at h
  cases him : env.importBoto3 with
  | error e =>
    rw [him] at h
    simp at h
    exact Or.inl h.symm
  | ok u =>
    rw [him] at h
    cases hc : env.stsCall with
    | ok p => rw [hc] at h; simp at h
    | error e =>
      rw [hc] at h
      cases e with
      | noCredentialsError =>
        injection h with hA
        injection hA with hB
        subst hB
        exact Or.inr (Or.inl rfl)
      | endpointConnectionError d =>
        injection h with hA
        injection hA with hB
        subst hB
        exact Or.inr (Or.inr ⟨d, Or.inl rfl⟩)
      | clientError d =>
        injection h with hA
        injection hA with hB
        subst hB
        exact Or.inr (Or.inr ⟨d, Or.inr (Or.inl rfl)⟩)
      | fileNotFoundError d =>
        injection h with hA
        injection hA with hB
        subst hB
        exact Or.inr (Or.inr ⟨pyExcMsg (PyExc.fileNotFoundError d), Or.inr (Or.inr rfl)⟩)
      | other d =>
        injection h with hA
        injection hA with hB
        subst hB
        exact Or.inr (Or.inr ⟨pyExcMsg (PyExc.other d), Or.inr (Or.inr rfl)⟩)

theorem main_primary_success {w : World} {p : Json}
    (h : check_with_boto3 w.sdk = .ok (.success p)) :
    main w = .ok ⟨["AWS reachable via boto3:", json_dumps p], 0, false⟩ := by
  unfold main
  rw [h]

theorem main_fallback_success {w : World} {p : Json}
    (h : check_with_boto3 w.sdk = .ok (.failure "boto3-not-available"))
    (hc : check_with_awscli w.cli = .ok (.success p)) :
    main w = .ok ⟨["AWS reachable via aws-cli:", json_dumps p], 0, true⟩ := by
  unfold main
  rw [h]
  simp only []
  rw [if_true, hc]

theorem main_fallback_failure {w : World} {m2 : String}
    (h : check_with_boto3 w.sdk = .ok (.failure "boto3-not-available"))
    (hc : check_with_awscli w.cli = .ok (.failure m2)) :
    main w = .ok ⟨["AWS check failed (aws-cli): " ++ m2], 3, true⟩ := by
  unfold main
  rw [h]
  simp only []
  rw [if_true, hc]

theorem main_no_credentials {w : World}
    (h : check_with_boto3 w.sdk = .ok (.failure "no-credentials")) :
    main w = .ok ⟨["AWS check failed: no credentials available for boto3"], 2, false⟩ := by
  unfold main
  rw [h]
  simp only []
  rw [if_neg (by decide), if_true]

theorem main_other_failure {w : World} {m : String}
    (h : check_with_boto3 w.sdk = .ok (.failure m))
    (h1 : m ≠ "boto3-not-available") (h2 : m ≠ "no-credentials") :
    main w = .ok ⟨["AWS check failed (boto3): " ++ m], 4, false⟩ := by
  unfold main
  rw [h]
  simp only []
  rw [if_neg h1, if_neg h2]

/-- C1: every run that reaches one of the five terminal states of the
orchestration terminates normally with the exit code the spec maps that
state to, namely 0 for primary success, 0 for fallback success, 3 for
fallback failure, 2 for the no-credentials failure and 4 for every other
primary failure; a state of the last kind is always an endpoint, client
or unknown error; no other exit code arises from these five outcomes. -/
theorem spec_c1 (w : World) (t : Terminal) (ht : terminalOf w = some t) :
    (∃ r : MainResult, main w = .ok r ∧ r.exitCode = exitOf t) ∧
    (t = .otherPrimaryFailure →
      ∃ d, check_with_boto3 w.sdk = .ok (.failure ("endpoint-error: " ++ d)) ∨
        check_with_boto3 w.sdk = .ok (.failure ("client-error: " ++ d)) ∨
        check_with_boto3 w.sdk = .ok (.failure ("unknown-error: " ++ d))) := by
  unfold terminalOf at ht
  cases hb : check_with_boto3 w.sdk with
  | error e => rw [hb] at ht; exact absurd ht (by simp)
  | ok oc =>
    rw [hb] at ht
    cases oc with
    | success p =>
      simp only [] at ht
      simp only [Option.some.injEq] at ht
      subst ht
      exact ⟨⟨_, main_primary_success hb, rfl⟩, fun h => Terminal.noConfusion h⟩
    | failure m =>
      simp only [] at ht
      by_cases h1 : m = "boto3-not-available"
      · subst h1
        rw [if_pos rfl] at ht
        cases hc : check_with_awscli w.cli with
        | error e => rw [hc] at ht; exact absurd ht (by simp)
        | ok oc2 =>
          rw [hc] at ht
          cases oc2 with
          | success p2 =>
            simp only [] at ht
            simp only [Option.some.injEq] at ht
            subst ht
            exact ⟨⟨_, main_fallback_success hb hc, rfl⟩, fun h => Terminal.noConfusion h⟩
          | failure m2 =>
            simp only [] at ht
            simp only [Option.some.injEq] at ht
            subst ht
            exact ⟨⟨_, main_fallback_failure hb hc, rfl⟩, fun h => Terminal.noConfusion h⟩
      · rw [if_neg h1] at ht
        by_cases h2 : m = "no-credentials"
        · subst h2
          rw [if_pos rfl] at ht
          simp only [Option.some.injEq] at ht
          subst ht
          exact ⟨⟨_, main_no_credentials hb, rfl⟩, fun h => Terminal.noConfusion h⟩
        · rw [if_neg h2] at ht
          simp only [Option.some.injEq] at ht
          subst ht
          refine ⟨⟨_, main_other_failure hb h1 h2, rfl⟩, fun _ => ?_⟩
          rcases check_with_boto3_failure_cases w.sdk m hb with hA | hA | ⟨d, hA⟩
          · exact absurd hA h1
          · exact absurd hA h2
          · rcases hA with hA | hA | hA
            · exact ⟨d, Or.inl (by rw [hA])⟩
            · exact ⟨d, Or.inr (Or.inl (by rw [hA]))⟩
            · exact ⟨d, Or.inr (Or.inr (by rw [hA]))⟩

theorem spec_c1_witness :
    (∃ r : MainResult, main w_ok = .ok r ∧ r.exitCode = exitOf .primarySuccess) ∧
    (Terminal.primarySuccess = .otherPrimaryFailure →
      ∃ d, check_with_boto3 w_ok.sdk = .ok (.failure ("endpoint-error: " ++ d)) ∨
        check_with_boto3 w_ok.sdk = .ok (.failure ("client-error: " ++ d)) ∨
        check_with_boto3 w_ok.sdk = .ok (.failure ("unknown-error: " ++ d))) :=
  spec_c1 w_ok .primarySuccess rfl

theorem main_fallback_raise {w : World} {e : PyExc}
    (h : check_with_boto3 w.sdk = .ok (.failure "boto3-not-available"))
    (hc : check_with_awscli w.cli = .error e) : main w = .error e := by
  unfold main
  rw [h]
  simp only []
  rw [if_true, hc]

/-- C2: when the primary outcome is anything other than the
boto3-not-available failure, the run returns normally and the fallback is
never invoked, so no subprocess is spawned. -/
theorem spec_c2 (w : World)
    (h : check_with_boto3 w.sdk ≠ .ok (.failure "boto3-not-available")) :
    ∃ r : MainResult, main w = .ok r ∧ r.cliInvoked = false := by
  obtain ⟨oc, hb⟩ := check_with_boto3_total w.sdk
  cases oc with
  | success p => exact ⟨_, main_primary_success hb, rfl⟩
  | failure m =>
    have h1 : m ≠ "boto3-not-available" := by
      intro hm
      subst hm
      exact h hb
    by_cases h2 : m = "no-credentials"
    · subst h2
      exact ⟨_, main_no_credentials hb, rfl⟩
    · exact ⟨_, main_other_failure hb h1 h2, rfl⟩

theorem spec_c2_witness : ∃ r : MainResult, main w_ok = .ok r ∧ r.cliInvoked = false :=
  spec_c2 w_ok (by simp [check_with_boto3, w_ok, sdkOk])

/-- C3 (amended): when the primary path is unavailable and the fallback
subprocess exits with status 1 and stderr Unable to locate credentials,
the program prints the single line AWS check failed (aws-cli):
aws-cli-error: Unable to locate credentials, which embeds the aws-cli-error
tag of check_with_awscli, and exits with code 3. -/
theorem spec_c3 (w : World) (e : PyExc) (him : w.sdk.importBoto3 = .error e)
    (out : String)
    (hcli : w.cli.run = .ok ⟨1, out, "Unable to locate credentials"⟩) :
    main w = .ok ⟨["AWS check failed (aws-cli): aws-cli-error: Unable to locate credentials"],
      3, true⟩ := by
  have hb : check_with_boto3 w.sdk = .ok (.failure "boto3-not-available") := by
    unfold check_with_boto3
    rw [him]
  have hc : check_with_awscli w.cli =
      .ok (.failure ("aws-cli-error: " ++ pyStrip "Unable to locate credentials")) := by
    unfold check_with_awscli
    rw [hcli]
    simp only []
    rw [if_pos (by decide)]
  rw [main_fallback_failure hb hc,
    show "AWS check failed (aws-cli): " ++
        ("aws-cli-error: " ++ pyStrip "Unable to locate credentials") =
      "AWS check failed (aws-cli): aws-cli-error: Unable to locate credentials"
      from by decide]

theorem spec_c3_witness :
    main w_c3 = .ok ⟨["AWS check failed (aws-cli): aws-cli-error: Unable to locate credentials"],
      3, true⟩ :=
  spec_c3 w_c3 (.other "No module named boto3") rfl "" rfl

/-- C3 counterexample: in the world where boto3 is missing and the
subprocess exits 1 with stderr Unable to locate credentials, the printed
line carries the aws-cli-error tag, so it differs from the line the claim
states. -/
theorem spec_c3_cex :
    main w_c3 = .ok ⟨["AWS check failed (aws-cli): aws-cli-error: Unable to locate credentials"],
      3, true⟩ ∧
    "AWS check failed (aws-cli): aws-cli-error: Unable to locate credentials" ≠
      "AWS check failed (aws-cli): Unable to locate credentials" :=
  ⟨rfl, by decide⟩

/-- C4 (code bug): the module-level import of load_dotenv at line 8 and the
module-level load_dotenv call at line 13 are unguarded, so a failure while
loading the environment configuration aborts the process with an uncaught
exception before the check runs, even in a world where the check itself
would have completed normally. -/
theorem spec_c4 :
    program w_c4 = .error (.other "No module named dotenv") ∧
    (∃ r : MainResult, main w_c4 = .ok r) :=
  ⟨rfl, ⟨_, rfl⟩⟩

/-- C5: on every run that exits with code 0 the output is a header line
followed by the identity payload rendered by json.dumps, and parsing that
rendering back with json.loads yields a value structurally equal to the
payload. -/
theorem spec_c5 (w : World) (r : MainResult) (h : main w = .ok r)
    (h0 : r.exitCode = 0) :
    ∃ hdr p, r.output = [hdr, json_dumps p] ∧ json_loads (json_dumps p) = .ok p := by
  obtain ⟨oc, hb⟩ := check_with_boto3_total w.sdk
  cases oc with
  | success p =>
    rw [main_primary_success hb] at h
    injection h with h2
    subst h2
    exact ⟨_, p, rfl, json_loads_dumps p⟩
  | failure m =>
    by_cases h1 : m = "boto3-not-available"
    · subst h1
      cases hcw : check_with_awscli w.cli with
      | error e =>
        rw [main_fallback_raise hb hcw] at h
        simp at h
      | ok oc2 =>
        cases oc2 with
        | success p2 =>
          rw [main_fallback_success hb hcw] at h
          injection h with h2
          subst h2
          exact ⟨_, p2, rfl, json_loads_dumps p2⟩
        | failure m2 =>
          rw [main_fallback_failure hb hcw] at h
          injection h with h2
          subst h2
          simp at h0
    · by_cases h2 : m = "no-credentials"
      · subst h2
        rw [main_no_credentials hb] at h
        injection h with h3
        subst h3
        simp at h0
      · rw [main_other_failure hb h1 h2] at h
        injection h with h3
        subst h3
        simp at h0

theorem spec_c5_witness :
    ∃ hdr p, (MainResult.mk ["AWS reachable via boto3:", json_dumps idPayload] 0 false).output
        = [hdr, json_dumps p] ∧ json_loads (json_dumps p) = .ok p :=
  spec_c5 w_ok ⟨["AWS reachable via boto3:", json_dumps idPayload], 0, false⟩ rfl rfl

/-- C6: check_with_awscli classifies its outcome into four cases: binary
not found gives the aws-cli-not-found failure, a nonzero exit status gives
the aws-cli-error failure carrying the stripped stderr, unparseable stdout
of a successful process gives the parse-error failure carrying the parse
error message, and parseable stdout gives success with the parsed JSON. -/
theorem spec_c6 (env : CliEnv) :
    (∀ m, env.run = .error (.fileNotFoundError m) →
      check_with_awscli env = .ok (.failure "aws-cli-not-found")) ∧
    (∀ p : ProcResult, env.run = .ok p → p.returncode ≠ 0 →
      check_with_awscli env = .ok (.failure ("aws-cli-error: " ++ pyStrip p.stderr))) ∧
    (∀ (p : ProcResult) (e : String), env.run = .ok p → p.returncode = 0 →
      json_loads p.stdout = .error e →
      check_with_awscli env = .ok (.failure ("parse-error: " ++ e))) ∧
    (∀ (p : ProcResult) (j : Json), env.run = .ok p → p.returncode = 0 →
      json_loads p.stdout = .ok j →
      check_with_awscli env = .ok (.success j)) := by
  refine ⟨?_, ?_, ?_, ?_⟩
  · intro m hrun
    unfold check_with_awscli
    rw [hrun]
  · intro p hrun hrc
    unfold check_with_awscli
    rw [hrun]
    simp only []
    rw [if_pos hrc]
  · intro p e hrun hrc hjl
    unfold check_with_awscli
    rw [hrun]
    simp only []
    rw [if_neg (by simp [hrc]), hjl]
  · intro p j hrun hrc hjl
    unfold check_with_awscli
    rw [hrun]
    simp only []
    rw [if_neg (by simp [hrc]), hjl]

theorem spec_c6_witness :
    check_with_awscli cliMissing = .ok (.failure "aws-cli-not-found") ∧
    check_with_awscli cliNoCreds =
      .ok (.failure ("aws-cli-error: " ++ pyStrip "Unable to locate credentials")) :=
  ⟨(spec_c6 cliMissing).1 "aws" rfl,
   (spec_c6 cliNoCreds).2.1 ⟨1, "", "Unable to locate credentials"⟩ rfl (by decide)⟩

/-- C7: check_with_boto3 maps every environment to exactly one of six
results and never raises: import failure gives boto3-not-available,
NoCredentialsError gives no-credentials, EndpointConnectionError gives
endpoint-error with the message, ClientError gives client-error with the
message, any other exception gives unknown-error with the message, and a
successful call gives success with the response payload. -/
theorem spec_c7 (env : SdkEnv) :
    (∃ oc, check_with_boto3 env = .ok oc) ∧
    (∀ e, env.importBoto3 = .error e →
      check_with_boto3 env = .ok (.failure "boto3-not-available")) ∧
    (env.importBoto3 = .ok () → env.stsCall = .error .noCredentialsError →
      check_with_boto3 env = .ok (.failure "no-credentials")) ∧
    (∀ m, env.importBoto3 = .ok () → env.stsCall = .error (.endpointConnectionError m) →
      check_with_boto3 env = .ok (.failure ("endpoint-error: " ++ m))) ∧
    (∀ m, env.importBoto3 = .ok () → env.stsCall = .error (.clientError m) →
      check_with_boto3 env = .ok (.failure ("client-error: " ++ m))) ∧
    (∀ e, env.importBoto3 = .ok () → env.stsCall = .error e →
      e ≠ .noCredentialsError → (∀ m, e ≠ .endpointConnectionError m) →
      (∀ m, e ≠ .clientError m) →
      check_with_boto3 env = .ok (.failure ("unknown-error: " ++ pyExcMsg e))) ∧
    (∀ p, env.importBoto3 = .ok () → env.stsCall = .ok p →
      check_with_boto3 env = .ok (.success p)) := by
  refine ⟨check_with_boto3_total env, ?_, ?_, ?_, ?_, ?_, ?_⟩
  · intro e him
    unfold check_with_boto3
    rw [him]
  · intro him hsts
    unfold check_with_boto3
    rw [him, hsts]
  · intro m him hsts
    unfold check_with_boto3
    rw [him, hsts]
  · intro m him hsts
    unfold check_with_boto3
    rw [him, hsts]
  · intro e him hsts h1 h2 h3
    unfold check_with_boto3
    rw [him, hsts]
    cases e with
    | noCredentialsError => exact absurd rfl h1
    | endpointConnectionError m => exact absurd rfl (h2 m)
    | clientError m => exact absurd rfl (h3 m)
    | fileNotFoundError m => rfl
    | other m => rfl
  · intro p him hsts
    unfold check_with_boto3
    rw [him, hsts]

theorem spec_c7_witness :
    check_with_boto3 sdkNoCreds = .ok (.failure "no-credentials") :=
  (spec_c7 sdkNoCreds).2.2.1 rfl rfl

/-- C8: when the primary path reports the no-credentials failure the run
prints exactly the dedicated line, exits with code 2, and never invokes
the fallback, whatever the CLI environment holds. -/
theorem spec_c8 (w : World)
    (h : check_with_boto3 w.sdk = .ok (.failure "no-credentials")) :
    main w = .ok ⟨["AWS check failed: no credentials available for boto3"], 2, false⟩ :=
  main_no_credentials h

theorem spec_c8_witness :
    main w_nc = .ok ⟨["AWS check failed: no credentials available for boto3"], 2, false⟩ :=
  spec_c8 w_nc rfl

/-- C9: every run that exits with code 0 printed a human-readable header
naming the path that succeeded, boto3 or aws-cli, followed by the identity
payload rendered by json.dumps with two-space indentation. -/
theorem spec_c9 (w : World) (r : MainResult) (h : main w = .ok r)
    (h0 : r.exitCode = 0) :
    (∃ p, check_with_boto3 w.sdk = .ok (.success p) ∧
      r.output = ["AWS reachable via boto3:", json_dumps p]) ∨
    (∃ p, check_with_awscli w.cli = .ok (.success p) ∧
      r.output = ["AWS reachable via aws-cli:", json_dumps p]) := by
  obtain ⟨oc, hb⟩ := check_with_boto3_total w.sdk
  cases oc with
  | success p =>
    rw [main_primary_success hb] at h
    injection h with h2
    subst h2
    exact Or.inl ⟨p, hb, rfl⟩
  | failure m =>
    by_cases h1 : m = "boto3-not-available"
    · subst h1
      cases hcw : check_with_awscli w.cli with
      | error e =>
        rw [main_fallback_raise hb hcw] at h
        simp at h
      | ok oc2 =>
        cases oc2 with
        | success p2 =>
          rw [main_fallback_success hb hcw] at h
          injection h with h2
          subst h2
          exact Or.inr ⟨p2, rfl, rfl⟩
        | failure m2 =>
          rw [main_fallback_failure hb hcw] at h
          injection h with h2
          subst h2
          simp at h0
    · by_cases h2 : m = "no-credentials"
      · subst h2
        rw [main_no_credentials hb] at h
        injection h with h3
        subst h3
        simp at h0
      · rw [main_other_failure hb h1 h2] at h
        injection h with h3
        subst h3
        simp at h0

theorem spec_c9_witness :
    (∃ p, check_with_boto3 w_ok.sdk = .ok (.success p) ∧
      (MainResult.mk ["AWS reachable via boto3:", json_dumps idPayload] 0 false).output
        = ["AWS reachable via boto3:", json_dumps p]) ∨
    (∃ p, check_with_awscli w_ok.cli = .ok (.success p) ∧
      (MainResult.mk ["AWS reachable via boto3:", json_dumps idPayload] 0 false).output
        = ["AWS reachable via aws-cli:", json_dumps p]) :=
  spec_c9 w_ok ⟨["AWS reachable via boto3:", json_dumps idPayload], 0, false⟩ rfl rfl

/-- C10: the exit code that any normal return of main passes to sys.exit
lies in the set of 0, 2, 3 and 4; in particular it is never 1. -/
theorem spec_c10 (w : World) (r : MainResult) (h : main w = .ok r) :
    (r.exitCode = 0 ∨ r.exitCode = 2 ∨ r.exitCode = 3 ∨ r.exitCode = 4) ∧
      r.exitCode ≠ 1 := by
  obtain ⟨oc, hb⟩ := check_with_boto3_total w.sdk
  cases oc with
  | success p =>
    rw [main_primary_success hb] at h
    injection h with h2
    subst h2
    exact ⟨Or.inl rfl, by simp⟩
  | failure m =>
    by_cases h1 : m = "boto3-not-available"
    · subst h1
      cases hcw : check_with_awscli w.cli with
      | error e =>
        rw [main_fallback_raise hb hcw] at h
        simp at h
      | ok oc2 =>
        cases oc2 with
        | success p2 =>
          rw [main_fallback_success hb hcw] at h
          injection h with h2
          subst h2
          exact ⟨Or.inl rfl, by simp⟩
        | failure m2 =>
          rw [main_fallback_failure hb hcw] at h
          injection h with h2
          subst h2
          exact ⟨Or.inr (Or.inr (Or.inl rfl)), by simp⟩
    · by_cases h2 : m = "no-credentials"
      · subst h2
        rw [main_no_credentials hb] at h
        injection h with h3
        subst h3
        exact ⟨Or.inr (Or.inl rfl), by simp⟩
      · rw [main_other_failure hb h1 h2] at h
        injection h with h3
        subst h3
        exact ⟨Or.inr (Or.inr (Or.inr rfl)), by simp⟩

theorem spec_c10_witness :
    ((MainResult.mk ["AWS reachable via boto3:", json_dumps idPayload] 0 false).exitCode = 0 ∨
      (MainResult.mk ["AWS reachable via boto3:", json_dumps idPayload] 0 false).exitCode = 2 ∨
      (MainResult.mk ["AWS reachable via boto3:", json_dumps idPayload] 0 false).exitCode = 3 ∨
      (MainResult.mk ["AWS reachable via boto3:", json_dumps idPayload] 0 false).exitCode = 4) ∧
      (MainResult.mk ["AWS reachable via boto3:", json_dumps idPayload] 0 false).exitCode ≠ 1 :=
  spec_c10 w_ok ⟨["AWS reachable via boto3:", json_dumps idPayload], 0, false⟩ rfl

end CheckAws
